import Mathlib

/-!
Verification of the tap-hubspot incremental extraction engine
(source file `tap_hubspot/__init__.py`) against its natural-language
specification.

Shallow-embedding conventions used throughout:
* Instants (Python `datetime` values, epoch-millisecond integers and
  ISO-8601 timestamp strings are all totally ordered and compared
  consistently in the source) are modelled as `Nat`.
* The process-global mutable `STATE` dict is an association list
  `StateMap`; mutation becomes explicit state passing.
* HTTP traffic is modelled by the finite list of outcomes the network
  produces for the successive attempts (for the retry layer) or pages
  (for the pagination layer).
-/

set_option maxRecDepth 100000

namespace TapHubspot

/-! ## HTTP Requester (source lines 158-180)

The source wraps `request` in
`backoff.on_exception(backoff.expo, RequestException, max_tries=5,
giveup=lambda e: e.response is not None and 400 <= e.response.status_code < 500,
factor=2)`.
Inside the body, `session.send` either raises a network-level
`RequestException` (carrying no response) or returns a response object;
`refresh_token` (line 150) can also raise an `HTTPError` (a
`RequestException` carrying a response) via `raise_for_status`.
If a response is returned and `resp.status_code >= 400`, the body logs
the URL and status and calls `sys.exit(1)` — `SystemExit` is not a
`RequestException`, so the backoff layer never sees it. -/

/-- Outcome of one attempt of the (undecorated) `request` body:
a network-level `RequestException` with no attached response, a raised
`RequestException` carrying a response with the given status (only the
token-refresh `raise_for_status` produces these here), or an HTTP
response to the GET with the given status code. -/
inductive Outcome where
  | netError : Outcome
  | httpExn : Nat → Outcome
  | response : Nat → Outcome
deriving DecidableEq

/-- Result of the decorated `request` call: a returned response
(status < 400), process termination via `sys.exit` with the logged URL,
logged status and exit code (source lines 176-178), or a propagated
`RequestException` (carrying the attached response status, if any). -/
inductive ReqResult where
  | success : Nat → ReqResult
  | processExit : String → Nat → Nat → ReqResult
  | failure : Option Nat → ReqResult
deriving DecidableEq

/-- The `giveup` predicate of the backoff decorator (source line 161):
give up (do not retry) exactly when the exception carries a response
whose status is in [400, 500). -/
def giveupOn (respStatus : Option Nat) : Bool :=
  match respStatus with
  | some s => decide (400 ≤ s ∧ s < 500)
  | none => false

/-- The backoff retry loop around the `request` body with `max_tries`
calls remaining; returns the final result together with the number of
backoff sleeps performed.  On an exception, backoff re-raises when
`giveup` holds or the attempt budget is exhausted, and otherwise sleeps
once and retries. -/
def requestAttempts (url : String) : List Outcome → Nat → ReqResult × Nat
  | [], _ => (ReqResult.failure none, 0)
  | o :: rest, tries =>
    match o with
    | Outcome.netError =>
      if giveupOn none || decide (tries ≤ 1) then (ReqResult.failure none, 0)
      else
        let r := requestAttempts url rest (tries - 1)
        (r.1, r.2 + 1)
    | Outcome.httpExn s =>
      if giveupOn (some s) || decide (tries ≤ 1) then (ReqResult.failure (some s), 0)
      else
        let r := requestAttempts url rest (tries - 1)
        (r.1, r.2 + 1)
    | Outcome.response s =>
      if 400 ≤ s then (ReqResult.processExit url s 1, 0)
      else (ReqResult.success s, 0)

/-- The decorated `request` (source lines 158-180): the retry loop with
`max_tries = 5`. -/
def request (url : String) (outcomes : List Outcome) : ReqResult × Nat :=
  requestAttempts url outcomes 5

/-! ## Token Lifecycle Manager (source lines 139-155 and 163-165) -/

/-- The credential slice of the mutable `CONFIG` dict:
`access_token`, `refresh_token` and `token_expires` (a `datetime` or
`None`). -/
structure TokenState where
  access_token : Option String
  refresh_token : String
  token_expires : Option Nat
deriving DecidableEq

/-- Decoded body of a successful refresh exchange against
`/oauth/v1/token` (source lines 151-154). -/
structure AuthResponse where
  access_token : String
  refresh_token : String
  expires_in : Nat
deriving DecidableEq

/-- Effect of a successful `refresh_token()` (source lines 152-154):
all three credential fields are replaced; the new expiry is `now` plus
the server-reported lifetime minus the 600-second safety margin. -/
def refresh_token (now : Nat) (auth : AuthResponse) (_st : TokenState) : TokenState :=
  { access_token := some auth.access_token
    refresh_token := auth.refresh_token
    token_expires := some (now + (auth.expires_in - 600)) }

/-- The refresh condition at the top of `request` (source line 164):
`CONFIG['token_expires'] is None or CONFIG['token_expires'] < utcnow()`.
Note the strict `<`. -/
def needsRefresh (st : TokenState) (now : Nat) : Bool :=
  match st.token_expires with
  | none => true
  | some t => decide (t < now)

/-- Source lines 163-165: before the outbound GET, refresh exactly when
`needsRefresh`; returns the credential state afterwards and whether a
refresh exchange was performed. -/
def ensureValid (st : TokenState) (now : Nat) (auth : AuthResponse) : TokenState × Bool :=
  if needsRefresh st now then (refresh_token now auth st, true) else (st, false)

/-- The refresh condition in the words of the specification: refresh
"if no credential is held or the held credential's expiry is at or
before the current instant".  Written from the spec for comparison with
`needsRefresh`, which is written from the source. -/
def specShouldRefresh (st : TokenState) (now : Nat) : Bool :=
  match st.token_expires with
  | none => true
  | some t => decide (t ≤ now)

/-! ## Watermark Store (the `STATE` dict, source lines 33 and 64-68) -/

/-- The mutable `STATE` dict: stream name to watermark instant. -/
abbrev StateMap : Type := List (String × Nat)

/-- Lookup the entry stored under a key (dict access). -/
def lookupOpt : StateMap → String → Option Nat
  | [], _ => none
  | (k, v) :: rest, key => if k = key then some v else lookupOpt rest key

/-- Set a key (dict assignment): replace the existing entry or append. -/
def setKey : StateMap → String → Nat → StateMap
  | [], key, v => [(key, v)]
  | (k, w) :: rest, key, v =>
    if k = key then (key, v) :: rest else (k, w) :: setKey rest key v

/-- Lookup with a default. -/
def lookupD (st : StateMap) (key : String) (d : Nat) : Nat :=
  (lookupOpt st key).getD d

/-- Membership test (`key in STATE`). -/
def containsKey (st : StateMap) (key : String) : Bool :=
  (lookupOpt st key).isSome

/-- `get_start` (source lines 64-68): if the key is absent from `STATE`,
store the configured `start_date` under it, then return the stored
value.  Returns the value together with the possibly-updated state. -/
def get_start (start_date : Nat) (state : StateMap) (key : String) : Nat × StateMap :=
  match lookupOpt state key with
  | some v => (v, state)
  | none => (start_date, setKey state key start_date)

/-- Modelled from the spec: `singer.utils.update_state` is external
library code, absent from this repository's source.  Per spec section
4.6, `update(stream, instant)` has plain set semantics — "the store does
not itself enforce ordering — that responsibility is the caller's" —
and per section 4.7 the watermark advances "from each emitted entity's
modification instant", so an absent (`None`) instant does not change the
store. -/
def update_state (state : StateMap) (key : String) (v : Option Nat) : StateMap :=
  match v with
  | none => state
  | some t => setKey state key t

/-! ## Pagination Cursor (`gen_request`, source lines 183-209) -/

/-- One decoded page response, abstracting `request(url, params).json()`
for a listing endpoint: the entity rows found under the declared path
(or the whole top-level list when no path is declared), the value of the
stream's "more data" flag (`data.get(more_key, False)`), and the echoed
offset fields (`data[key]`; a key missing from the response would be a
runtime `KeyError` in the source and is modelled as 0, a case no claim
exercises). -/
structure Page where
  rows : List Nat
  more : Bool
  offsets : List (String × Nat)

/-- The normalisation at the top of `gen_request` (source lines
184-188): a scalar offset argument becomes a one-element list. -/
inductive OffsetArg where
  | single : String → OffsetArg
  | many : List String → OffsetArg

/-- `if not isinstance(x, list): x = [x]`. -/
def normalizeOffsets : OffsetArg → List String
  | OffsetArg.single k => [k]
  | OffsetArg.many ks => ks

/-- Auxiliary lookup in a page's echoed offset fields. -/
def offsetValue (offsets : List (String × Nat)) (key : String) : Nat :=
  match offsets with
  | [] => 0
  | (k, v) :: rest => if k = key then v else offsetValue rest key

/-- The cursor-advance step (source lines 202-203): for each
(offset-key, offset-target) pair, copy the value echoed under the
offset-key into the request parameter named by the offset-target. -/
def updateParams (params : List (String × Nat)) (ks ts : List String) (pg : Page) :
    List (String × Nat) :=
  (ks.zip ts).foldl (fun ps kt => setKey ps kt.2 (offsetValue pg.offsets kt.1)) params

/-- The `while True` loop of `gen_request` (source lines 193-209) run
against the finite sequence of page responses the server returns: yields
the rows of each page in order; with a declared path it stops when the
"more" flag is false and otherwise advances the offset parameters and
continues; with no declared path it stops after the first page.  Returns
the yielded rows together with the number of HTTP requests issued. -/
def genLoop (path : Option String) : List Page → List (String × Nat) → List String →
    List String → List Nat × Nat
  | [], _, _, _ => ([], 0)
  | pg :: rest, params, ks, ts =>
    match path with
    | some p =>
      if pg.more then
        let params2 := updateParams params ks ts pg
        let r := genLoop (some p) rest params2 ks ts
        (pg.rows ++ r.1, r.2 + 1)
      else
        (pg.rows, 1)
    | none => (pg.rows, 1)

/-- `gen_request` (source lines 183-209): after normalising the offset
arguments, raise `ValueError` when the key and target counts differ —
before any request is issued — and otherwise run the pagination loop.
Returns the outcome together with the number of HTTP requests issued. -/
def gen_request (offset_keys offset_targets : OffsetArg) (params : List (String × Nat))
    (pages : List Page) (path : Option String) : Except String (List Nat) × Nat :=
  let ks := normalizeOffsets offset_keys
  let ts := normalizeOffsets offset_targets
  if ks.length ≠ ts.length then
    (Except.error "Number of offset_keys must match number of offset_targets", 0)
  else
    let r := genLoop path pages params ks ts
    (Except.ok r.1, r.2)

/-! ## Chunked Window Driver (`sync_entity_chunked`, source lines 339-361) -/

/-- `CHUNK_SIZES` (source lines 16-19): window size in milliseconds per
chunked stream. -/
def CHUNK_SIZES (entity : String) : Option Nat :=
  if entity = "email_events" then some (1000 * 60 * 60)
  else if entity = "subscription_changes" then some (1000 * 60 * 60 * 24)
  else none

/-- The window loop of `sync_entity_chunked` (source lines 348-361) with
explicit fuel: `while start_ts < now_ts: end_ts = start_ts + chunk;
... ; start_ts = end_ts`.  Each iteration produces the half-open window
`[start_ts, end_ts)`.  Fuel `now_ts - start_ts` suffices for any
positive chunk size (both configured chunk sizes are positive), so the
fuel variant below computes exactly the source loop's window sequence. -/
def windowsFuel : Nat → Nat → Nat → Nat → List (Nat × Nat)
  | 0, _, _, _ => []
  | fuel + 1, start_ts, now_ts, chunk =>
    if start_ts < now_ts then
      (start_ts, start_ts + chunk) :: windowsFuel fuel (start_ts + chunk) now_ts chunk
    else []

/-- The sequence of windows the source loop requests, for watermark
`start_ts`, loop-start instant `now_ts` and the stream's chunk size. -/
def windows (start_ts now_ts chunk : Nat) : List (Nat × Nat) :=
  windowsFuel (now_ts - start_ts) start_ts now_ts chunk

/-- Number of windows the loop performs: the ceiling of
`(now_ts - start_ts) / chunk`. -/
def numWindows (start_ts now_ts chunk : Nat) : Nat :=
  (now_ts - start_ts + chunk - 1) / chunk

/-- Last element of a list, or the default when empty (the value a
fold of repeated overwrites leaves behind). -/
def lastD (l : List Nat) (d : Nat) : Nat :=
  l.foldl (fun _ x => x) d

/-- The watermark stored when `sync_entity_chunked` finishes: the state
is set to `end_ts` after each window (source line 359), so it ends as
the last window's end, or stays at the seeded start when no window runs. -/
def chunkedFinalWatermark (start_ts now_ts chunk : Nat) : Nat :=
  lastD ((windows start_ts now_ts chunk).map Prod.snd) start_ts

/-- What the claim asserts of the window sequence, written from the
spec's words for comparison: the windows exactly tile `[W, N)` — an
instant lies in some window exactly when it lies in `[W, N)`. -/
def tilesExactly (ws : List (Nat × Nat)) (W N : Nat) : Prop :=
  ∀ t, (∃ w ∈ ws, w.1 ≤ t ∧ t < w.2) ↔ (W ≤ t ∧ t < N)


/-! ## Stream Sync Orchestrator models (source lines 212-441)

Each sync function is modelled by the observable effects the claims
speak about: the sequence of output messages it emits (schema, record,
state) and its effect on the `STATE` map.  Listing rows and detail
records are abstracted to the fields the source reads from them. -/

/-- One message on the output stream (`singer.write_schema`,
`singer.write_record`, `singer.write_state`). -/
inductive Msg where
  | schema : String → Msg
  | record : String → Msg
  | state : Msg
deriving DecidableEq

/-- Number of state messages in an emitted trace. -/
def countStates (ms : List Msg) : Nat :=
  ms.countP (fun m => m = Msg.state)

/-- A row of the contacts listing endpoint, reduced to the fields
`sync_contacts` reads: the `vid` and the parsed
`properties.lastmodifieddate.value` when present (source lines
234-239). -/
structure ContactRow where
  vid : Nat
  lastmodified : Option Nat
deriving DecidableEq

/-- The last-modified filter of `sync_contacts` (source line 238):
keep the row when it has no modification time or its modification time
is at or after the previous watermark. -/
def contactPasses (last_sync : Nat) (r : ContactRow) : Bool :=
  match r.lastmodified with
  | none => true
  | some m => decide (last_sync ≤ m)

/-- The batching loop of `sync_contacts` (source lines 232-252): each
row passing the filter appends its vid to `vids`; whenever `vids`
reaches length 100 a detail-fetch call is made with that batch and
`vids` is reset.  Returns the list of detail-fetch batches, in call
order.  Vids still pending when the listing ends are never fetched
(there is no flush after the loop). -/
def contactsBatches (rows : List ContactRow) (last_sync : Nat) : List (List Nat) :=
  (rows.foldl
    (fun acc row =>
      let vids := if contactPasses last_sync row then acc.1 ++ [row.vid] else acc.1
      if vids.length = 100 then ([], acc.2 ++ [vids]) else (vids, acc.2))
    ([], [])).2

/-- `n` contact rows, every one passing the last-modified filter for
watermark 0 (each carries modification instant 0). -/
def mkCandidateRows (n : Nat) : List ContactRow :=
  (List.range n).map (fun i => { vid := i, lastmodified := some 0 })

/-- The message trace of `sync_contacts` (source lines 212-254): one
schema message, then for each detail-fetch batch one record per vid in
the batch (the batch endpoint returns one record per requested vid),
and a single state message after the listing loop (source line 254 —
the only `write_state` in the function). -/
def sync_contacts_msgs (rows : List ContactRow) (last_sync : Nat) : List Msg :=
  Msg.schema "contacts"
    :: ((contactsBatches rows last_sync).map (fun b => b.map (fun _ => Msg.record "contacts"))).flatten
    ++ [Msg.state]

/-- A company detail record reduced to the field `sync_companies`
derives its modification instant from (source lines 282-286):
`hs_lastmodifieddate.value`, else `createdate.value`, else absent. -/
structure CompanyRecord where
  modified : Option Nat
deriving DecidableEq

/-- The per-record effect of `sync_companies` on `STATE` (source lines
288-290): when the record has no modification instant or it is at or
after the previous watermark, the record is emitted and
`utils.update_state` is called with that instant. -/
def companiesStep (last_sync : Nat) (st : StateMap) (r : CompanyRecord) : StateMap :=
  match r.modified with
  | none => update_state st "companies" none
  | some m => if last_sync ≤ m then update_state st "companies" (some m) else st

/-- The `STATE` evolution across the `sync_companies` record loop. -/
def syncCompaniesState (last_sync : Nat) (records : List CompanyRecord) (st : StateMap) :
    StateMap :=
  records.foldl (companiesStep last_sync) st

/-- The modification instants `sync_companies` passes to
`utils.update_state`, in encounter order: those of the records that
carry an instant at or after the previous watermark. -/
def passingTimes (last_sync : Nat) (records : List CompanyRecord) : List Nat :=
  records.filterMap (fun r =>
    match r.modified with
    | some m => if last_sync ≤ m then some m else none
    | none => none)

/-- The message trace of one listed record in `sync_companies` (source
lines 278-293) and, with the other stream name, in `sync_deals` (source
lines 309-324, textually the same loop body): the record message when it
passes the filter, then a state message when the zero-based enumeration
index is divisible by 250 (the `i % 250 == 0` check runs for every row,
filtered or not). -/
def masterDetailRowMsgs (stream : String) (last_sync : Nat) (i : Nat) (r : CompanyRecord) :
    List Msg :=
  (match r.modified with
   | none => [Msg.record stream]
   | some m => if last_sync ≤ m then [Msg.record stream] else [])
  ++ (if i % 250 = 0 then [Msg.state] else [])

/-- The message trace of `sync_companies` (source lines 257-293): a
schema message, then the per-record messages over the enumerated detail
records.  There is no `write_state` after the loop. -/
def sync_companies_msgs (records : List CompanyRecord) (last_sync : Nat) : List Msg :=
  Msg.schema "companies"
    :: (records.enum.map (fun p => masterDetailRowMsgs "companies" last_sync p.1 p.2)).flatten

/-- The message trace of `sync_deals` (source lines 296-324): same
shape as `sync_companies`, including the `i % 250 == 0` checkpoint and
the absence of a final `write_state`. -/
def sync_deals_msgs (records : List CompanyRecord) (last_sync : Nat) : List Msg :=
  Msg.schema "deals"
    :: (records.enum.map (fun p => masterDetailRowMsgs "deals" last_sync p.1 p.2)).flatten

/-- The message trace of `sync_campaigns` (source lines 327-336): a
schema message, then one record message per listed campaign (each after
its individual detail fetch).  The function contains no `write_state`
call, and never reads `STATE`. -/
def sync_campaigns_msgs (rows : List Nat) : List Msg :=
  Msg.schema "campaigns" :: rows.map (fun _ => Msg.record "campaigns")

/-- The message trace of `sync_contact_lists` (source lines 372-381): a
schema message, then one record message per listed row.  The function
contains no `write_state` call. -/
def sync_contact_lists_msgs (rows : List Nat) : List Msg :=
  Msg.schema "contact_lists" :: rows.map (fun _ => Msg.record "contact_lists")

/-- The message trace of `sync_entity_chunked` (source lines 339-361):
a schema message, then per window its records (`rowsInWindow` gives the
number of rows the window's pagination yields) followed by exactly one
state message (source line 360). -/
def sync_entity_chunked_msgs (entity : String) (rowsInWindow : Nat → Nat)
    (start_ts now_ts chunk : Nat) : List Msg :=
  Msg.schema entity
    :: ((List.range (windows start_ts now_ts chunk).length).map
      (fun i => (List.range (rowsInWindow i)).map (fun _ => Msg.record entity) ++ [Msg.state])).flatten

/-- The message trace shared by the small full-replace streams
`sync_forms`, `sync_workflows`, `sync_keywords` and `sync_owners`
(source lines 384-441): a schema message, one record message per row
whose update instant is at or after the stream's start, and exactly one
state message at stream completion. -/
def sync_small_stream_msgs (entity : String) (updatedAts : List Nat) (start : Nat) :
    List Msg :=
  Msg.schema entity
    :: updatedAts.filterMap (fun u => if start ≤ u then some (Msg.record entity) else none)
    ++ [Msg.state]

/-- The effect of `sync_campaigns` on the `STATE` map (source lines
327-337): none — the function neither reads a start position via
`get_start` nor calls `utils.update_state` nor `singer.write_state`. -/
def syncCampaignsStateEffect (_rows : List Nat) (st : StateMap) : StateMap :=
  st

/-- The effect of `sync_contacts` on the `STATE` map (source lines
212-254): `get_start` seeds the `"contacts"` key (line 213), then for
each detail record in each fetched batch that carries a
`lastmodifieddate`, `utils.update_state` stores it (lines 247-250).
`detail` gives the detail record's modification field per vid.  The
final map is what the `write_state` at line 254 serialises. -/
def syncContactsStateEffect (start_date : Nat) (rows : List ContactRow)
    (detail : Nat → Option Nat) (st : StateMap) : StateMap :=
  let p := get_start start_date st "contacts"
  (contactsBatches rows p.1).foldl
    (fun s b => b.foldl (fun s2 v => update_state s2 "contacts" (detail v)) s) p.2


/-! ## Helper lemmas -/

theorem lookupOpt_setKey_same (st : StateMap) (k : String) (v : Nat) :
    lookupOpt (setKey st k v) k = some v := by
  induction st with
  | nil => simp [setKey, lookupOpt]
  | cons p rest ih =>
    obtain ⟨k1, w⟩ := p
    by_cases h : k1 = k
    · simp [setKey, h, lookupOpt]
    · simp [setKey, h, lookupOpt, ih]

theorem containsKey_setKey_of_containsKey (st : StateMap) (key k2 : String) (v2 : Nat)
    (h : containsKey st key = true) : containsKey (setKey st k2 v2) key = true := by
  induction st with
  | nil => simp [containsKey, lookupOpt] at h
  | cons p rest ih =>
    obtain ⟨k1, w⟩ := p
    by_cases h12 : k1 = k2
    · subst h12
      by_cases hk : k1 = key
      · subst hk
        simp [setKey, containsKey, lookupOpt]
      · simp only [containsKey, lookupOpt, if_neg hk, Option.isSome] at h
        simpa [setKey, containsKey, lookupOpt, hk] using h
    · by_cases hk : k1 = key
      · subst hk
        simp [setKey, h12, containsKey, lookupOpt]
      · simp only [containsKey, lookupOpt, if_neg hk, Option.isSome] at h
        have := ih h
        simpa [setKey, h12, containsKey, lookupOpt, hk] using this

theorem containsKey_update_state_of_containsKey (st : StateMap) (key k2 : String)
    (v2 : Option Nat) (h : containsKey st key = true) :
    containsKey (update_state st k2 v2) key = true := by
  cases v2 with
  | none => exact h
  | some t => exact containsKey_setKey_of_containsKey st key k2 t h

/-! ## Claim C1 -/

/-- C1: the claim asserts that an HTTP response with status ≥ 500 is
retried with exponential backoff, so that a call receiving 503 twice and
then 200 returns the 200 body after exactly 2 backoff sleeps.  The code
instead hits the `resp.status_code >= 400` branch on the first 503 and
calls `sys.exit(1)`; `SystemExit` is not a `RequestException`, so the
backoff decorator never retries.  Evaluating the requester on the
claim's own scenario shows process termination with zero sleeps instead
of a success after 2 sleeps. -/
theorem tap_C1_evaluation :
    request "https://api.hubapi.com/x"
        [Outcome.response 503, Outcome.response 503, Outcome.response 200]
      = (ReqResult.processExit "https://api.hubapi.com/x" 503 1, 0)
    ∧ request "https://api.hubapi.com/x"
        [Outcome.response 503, Outcome.response 503, Outcome.response 200]
      ≠ (ReqResult.success 200, 2) := by
  constructor
  · decide
  · decide

/-! ## Claim C2 -/

/-- C2: the claim asserts that 250 candidate vids produce exactly 3
detail-fetch calls with batch sizes 100, 100 and 50, every candidate
appearing in exactly one batch.  The code flushes a batch only when
`len(vids) == 100` inside the listing loop and never flushes the
remainder after the loop, so 250 passing candidates yield only 2
detail-fetch calls of 100, and candidates 200-249 are never fetched. -/
theorem tap_C2_evaluation :
    (contactsBatches (mkCandidateRows 250) 0).map List.length = [100, 100]
    ∧ (contactsBatches (mkCandidateRows 250) 0).flatten = List.range 200 := by
  constructor
  · decide
  · decide

/-! ## Claim C5 -/

/-- C5: for every HTTP response with status in [400, 500) the requester
does not retry: it logs the failing URL and status and terminates the
process with exit code 1, whatever outcomes would have followed. -/
theorem tap_C5 (url : String) (s : Nat) (rest : List Outcome)
    (h1 : 400 ≤ s) (_h2 : s < 500) :
    request url (Outcome.response s :: rest) = (ReqResult.processExit url s 1, 0) := by
  simp [request, requestAttempts, h1]

theorem tap_C5_witness :
    request "https://api.hubapi.com/x" [Outcome.response 404, Outcome.response 200]
      = (ReqResult.processExit "https://api.hubapi.com/x" 404 1, 0) :=
  tap_C5 "https://api.hubapi.com/x" 404 [Outcome.response 200] (by decide) (by decide)

/-! ## Claim C6 -/

theorem genLoop_requests_pos (path : Option String) (pg : Page) (rest : List Page)
    (params : List (String × Nat)) (ks ts : List String) :
    1 ≤ (genLoop path (pg :: rest) params ks ts).2 := by
  cases path with
  | none => simp [genLoop]
  | some p =>
    by_cases h : pg.more <;> simp [genLoop, h]

/-- C6: normalising scalar offset arguments to one-element lists, if the
number of offset-key names differs from the number of offset-target
names then `gen_request` raises the configuration error with zero HTTP
requests issued; when the counts are equal no such error is raised, the
pagination proceeds and at least one request is issued whenever the
endpoint has a page to serve. -/
theorem tap_C6 (offset_keys offset_targets : OffsetArg) (params : List (String × Nat))
    (pages : List Page) (path : Option String) :
    ((normalizeOffsets offset_keys).length ≠ (normalizeOffsets offset_targets).length →
      gen_request offset_keys offset_targets params pages path
        = (Except.error "Number of offset_keys must match number of offset_targets", 0))
    ∧ ((normalizeOffsets offset_keys).length = (normalizeOffsets offset_targets).length →
      ∃ rows n, gen_request offset_keys offset_targets params pages path = (Except.ok rows, n)
        ∧ (pages ≠ [] → 1 ≤ n)) := by
  constructor
  · intro h
    simp [gen_request, h]
  · intro h
    refine ⟨(genLoop path pages params (normalizeOffsets offset_keys)
        (normalizeOffsets offset_targets)).1,
      (genLoop path pages params (normalizeOffsets offset_keys)
        (normalizeOffsets offset_targets)).2, ?_, ?_⟩
    · simp [gen_request, h]
    · intro hp
      cases pages with
      | nil => exact absurd rfl hp
      | cons pg rest => exact genLoop_requests_pos path pg rest params _ _

theorem tap_C6_witness :
    gen_request (OffsetArg.single "vid-offset") (OffsetArg.many ["vidOffset", "timeOffset"])
      [] [{ rows := [1], more := false, offsets := [] }] (some "contacts")
      = (Except.error "Number of offset_keys must match number of offset_targets", 0) :=
  (tap_C6 (OffsetArg.single "vid-offset") (OffsetArg.many ["vidOffset", "timeOffset"])
    [] [{ rows := [1], more := false, offsets := [] }] (some "contacts")).1 (by decide)

/-! ## Claim C7 -/

/-- C7 counterexample: the claim says a refresh is performed whenever
the held expiry is at or before the current instant.  At expiry exactly
equal to "now" the spec's condition demands a refresh, but the source's
condition is the strict `token_expires < utcnow()`, so no refresh
happens. -/
theorem tap_C7_counterexample :
    specShouldRefresh
        { access_token := some "a", refresh_token := "r", token_expires := some 100 } 100 = true
    ∧ (ensureValid
        { access_token := some "a", refresh_token := "r", token_expires := some 100 } 100
        { access_token := "a2", refresh_token := "r2", expires_in := 3600 }).2 = false := by
  constructor
  · decide
  · decide

/-- C7 (amended): before the outbound GET a refresh exchange is
performed if and only if no expiry is held or the held expiry is
strictly before the current instant; a request issued while the held
expiry is at or after the current instant does not trigger a refresh;
and a successful refresh replaces the access token, the refresh token
and the expiry (new expiry = now + reported lifetime - 600 s). -/
theorem tap_C7 (st : TokenState) (now : Nat) (auth : AuthResponse) :
    ((ensureValid st now auth).2 = true ↔
      st.token_expires = none ∨ ∃ t, st.token_expires = some t ∧ t < now)
    ∧ ((ensureValid st now auth).2 = true →
        (ensureValid st now auth).1
          = { access_token := some auth.access_token
              refresh_token := auth.refresh_token
              token_expires := some (now + (auth.expires_in - 600)) })
    ∧ ((ensureValid st now auth).2 = false → (ensureValid st now auth).1 = st) := by
  obtain ⟨a, r, te⟩ := st
  cases te with
  | none => simp [ensureValid, needsRefresh, refresh_token]
  | some t =>
    by_cases h : t < now
    · simp [ensureValid, needsRefresh, refresh_token, h]
    · simp [ensureValid, needsRefresh, refresh_token, h]

theorem tap_C7_witness :
    (ensureValid { access_token := none, refresh_token := "r", token_expires := some 50 } 100
        { access_token := "a2", refresh_token := "r2", expires_in := 3600 }).1
      = { access_token := some "a2", refresh_token := "r2",
          token_expires := some (100 + (3600 - 600)) } :=
  (tap_C7 { access_token := none, refresh_token := "r", token_expires := some 50 } 100
    { access_token := "a2", refresh_token := "r2", expires_in := 3600 }).2.1 (by decide)

/-! ## Claim C8 -/

theorem lastD_cons (a : Nat) (l : List Nat) (d : Nat) : lastD (a :: l) d = lastD l a := rfl

theorem passingTimes_nil (last_sync : Nat) : passingTimes last_sync [] = [] := rfl

theorem passingTimes_cons_none (last_sync : Nat) (r : CompanyRecord)
    (rest : List CompanyRecord) (hm : r.modified = none) :
    passingTimes last_sync (r :: rest) = passingTimes last_sync rest := by
  simp only [passingTimes, List.filterMap_cons, hm]

theorem passingTimes_cons_some_pass (last_sync m : Nat) (r : CompanyRecord)
    (rest : List CompanyRecord) (hm : r.modified = some m) (hp : last_sync ≤ m) :
    passingTimes last_sync (r :: rest) = m :: passingTimes last_sync rest := by
  simp only [passingTimes, List.filterMap_cons, hm, if_pos hp]

theorem passingTimes_cons_some_fail (last_sync m : Nat) (r : CompanyRecord)
    (rest : List CompanyRecord) (hm : r.modified = some m) (hp : ¬ last_sync ≤ m) :
    passingTimes last_sync (r :: rest) = passingTimes last_sync rest := by
  simp only [passingTimes, List.filterMap_cons, hm, if_neg hp]

theorem companiesStep_none (last_sync : Nat) (st : StateMap) (r : CompanyRecord)
    (hm : r.modified = none) : companiesStep last_sync st r = st := by
  simp [companiesStep, hm, update_state]

theorem companiesStep_some_pass (last_sync m : Nat) (st : StateMap) (r : CompanyRecord)
    (hm : r.modified = some m) (hp : last_sync ≤ m) :
    companiesStep last_sync st r = setKey st "companies" m := by
  simp [companiesStep, hm, if_pos hp, update_state]

theorem companiesStep_some_fail (last_sync m : Nat) (st : StateMap) (r : CompanyRecord)
    (hm : r.modified = some m) (hp : ¬ last_sync ≤ m) :
    companiesStep last_sync st r = st := by
  simp [companiesStep, hm, if_neg hp]

theorem companiesFold_lookup (last_sync : Nat) (records : List CompanyRecord)
    (st : StateMap) (d : Nat) :
    lookupD (List.foldl (companiesStep last_sync) st records) "companies" d
      = lastD (passingTimes last_sync records) (lookupD st "companies" d) := by
  induction records generalizing st with
  | nil => rfl
  | cons r rest ih =>
    rw [List.foldl_cons]
    cases hm : r.modified with
    | none =>
      rw [companiesStep_none last_sync st r hm, passingTimes_cons_none last_sync r rest hm]
      exact ih st
    | some m =>
      by_cases hp : last_sync ≤ m
      · rw [companiesStep_some_pass last_sync m st r hm hp,
          passingTimes_cons_some_pass last_sync m r rest hm hp, lastD_cons,
          ih (setKey st "companies" m)]
        congr 1
        simp [lookupD, lookupOpt_setKey_same]
      · rw [companiesStep_some_fail last_sync m st r hm hp,
          passingTimes_cons_some_fail last_sync m r rest hm hp]
        exact ih st

theorem passingTimes_ge (last_sync : Nat) (records : List CompanyRecord) :
    ∀ x ∈ passingTimes last_sync records, last_sync ≤ x := by
  induction records with
  | nil =>
    intro x hx
    simp [passingTimes_nil] at hx
  | cons r rest ih =>
    intro x hx
    cases hm : r.modified with
    | none =>
      rw [passingTimes_cons_none last_sync r rest hm] at hx
      exact ih x hx
    | some m =>
      by_cases hp : last_sync ≤ m
      · rw [passingTimes_cons_some_pass last_sync m r rest hm hp] at hx
        rcases List.mem_cons.mp hx with h | h
        · subst h
          exact hp
        · exact ih x h
      · rw [passingTimes_cons_some_fail last_sync m r rest hm hp] at hx
        exact ih x hx

theorem lastD_ge (lo : Nat) (l : List Nat) (a : Nat) (h : ∀ x ∈ l, lo ≤ x) (ha : lo ≤ a) :
    lo ≤ lastD l a := by
  induction l generalizing a with
  | nil => exact ha
  | cons x rest ih =>
    rw [lastD_cons]
    exact ih x (fun y hy => h y (List.mem_cons_of_mem x hy)) (h x (List.mem_cons_self x rest))

/-- C8 counterexample: the claim says that once the per-stream watermark
has been set to an instant T, no later update during the same run
installs an earlier value.  Running the `sync_companies` record loop
from watermark 0 over detail records with modification instants 10 then
5 — both passing the filter — first stores 10 and then overwrites it
with 5 < 10. -/
theorem tap_C8_counterexample :
    lookupD (syncCompaniesState 0 [{ modified := some 10 }] [("companies", 0)]) "companies" 0
      = 10
    ∧ lookupD (syncCompaniesState 0 [{ modified := some 10 }, { modified := some 5 }]
        [("companies", 0)]) "companies" 0 = 5 := by
  constructor
  · decide
  · decide

/-- C8 (amended): the watermark is advanced from each emitted record's
modification instant in encounter order, not as a running maximum: the
stored watermark after the `sync_companies` loop equals the *last*
passing record's modification instant (or the starting watermark when no
record passes), so it can regress within a run when records arrive out
of modification-time order; it never falls below the watermark the run
started from, because only instants at or after `last_sync` pass the
filter. -/
theorem tap_C8 (last_sync : Nat) (records : List CompanyRecord) :
    lookupD (syncCompaniesState last_sync records [("companies", last_sync)]) "companies" 0
      = lastD (passingTimes last_sync records) last_sync
    ∧ last_sync ≤ lastD (passingTimes last_sync records) last_sync := by
  constructor
  · have h := companiesFold_lookup last_sync records [("companies", last_sync)] 0
    simpa [lookupD, lookupOpt, syncCompaniesState] using h
  · exact lastD_ge last_sync (passingTimes last_sync records) last_sync
      (passingTimes_ge last_sync records) Nat.le.refl

/-! ## Claim C10 -/

/-- C10 counterexample: the claim says every state message emitted after
a stream's sync has begun contains an entry for that stream.
`sync_campaigns` never reads its start position (it contains no
`get_start` call), so after it has begun and completed on an empty prior
state, the state snapshot serialised by the `write_state` at the end of
`sync_contacts` — a state message emitted after the campaigns sync began
— has no "campaigns" entry, while the inserted "contacts" entry is
there. -/
theorem tap_C10_counterexample :
    containsKey
        (syncContactsStateEffect 5 [] (fun _ => none) (syncCampaignsStateEffect [] []))
        "campaigns" = false
    ∧ containsKey
        (syncContactsStateEffect 5 [] (fun _ => none) (syncCampaignsStateEffect [] []))
        "contacts" = true := by
  constructor
  · decide
  · decide

/-- C10 (amended): reading a stream's start position via `get_start`
when the key is absent inserts the configured `start_date` under that
key and returns it; when the key is present the stored value is returned
and the state is unchanged; and no later `setKey` or `update_state`
removes an existing key — so every state snapshot taken after a stream's
sync has read its start position contains that stream's entry, even if
the stream emitted no records.  This covers every stream except
campaigns, whose sync never reads a start position. -/
theorem tap_C10 (start_date : Nat) (st : StateMap) (key : String) :
    (lookupOpt st key = none →
      (get_start start_date st key).1 = start_date
        ∧ (get_start start_date st key).2 = setKey st key start_date
        ∧ containsKey (get_start start_date st key).2 key = true)
    ∧ (∀ v, lookupOpt st key = some v → get_start start_date st key = (v, st))
    ∧ (∀ k2 v2, containsKey st key = true → containsKey (setKey st k2 v2) key = true)
    ∧ (∀ k2 v2, containsKey st key = true →
        containsKey (update_state st k2 v2) key = true) := by
  refine ⟨?_, ?_, ?_, ?_⟩
  · intro h
    refine ⟨by simp [get_start, h], by simp [get_start, h], ?_⟩
    simp [get_start, h, containsKey, lookupOpt_setKey_same]
  · intro v h
    simp [get_start, h]
  · intro k2 v2 h
    exact containsKey_setKey_of_containsKey st key k2 v2 h
  · intro k2 v2 h
    exact containsKey_update_state_of_containsKey st key k2 v2 h

theorem tap_C10_witness :
    (get_start 7 [] "owners").1 = 7
    ∧ containsKey (get_start 7 [] "owners").2 "owners" = true := by
  have h := (tap_C10 7 [] "owners").1 rfl
  exact ⟨h.1, h.2.2⟩

/-! ## Window sequence characterization (claims C4 and C9) -/

theorem numWindows_eq_zero (W N c : Nat) (hc : 0 < c) (h : N ≤ W) : numWindows W N c = 0 := by
  unfold numWindows
  have h0 : N - W = 0 := by omega
  rw [h0]
  apply Nat.div_eq_of_lt
  omega

theorem numWindows_succ (W N c : Nat) (hc : 0 < c) (h : W < N) :
    numWindows W N c = numWindows (W + c) N c + 1 := by
  unfold numWindows
  by_cases hcd : N - W ≤ c
  · have h1 : N - (W + c) = 0 := by omega
    have h2 : (N - W + c - 1) / c = 1 := by
      apply Nat.div_eq_of_lt_le
      · omega
      · omega
    have h3 : (0 + c - 1) / c = 0 := by
      apply Nat.div_eq_of_lt
      omega
    rw [h1, h2, h3]
  · have h1 : N - (W + c) = N - W - c := by omega
    have h2 : N - W - c + c - 1 = N - W - 1 := by omega
    have h3 : N - W + c - 1 = (N - W - 1) + c := by omega
    rw [h1, h2, h3, Nat.add_div_right _ hc]

theorem windowsFuel_eq (c : Nat) (hc : 0 < c) :
    ∀ (fuel W N : Nat), N - W ≤ fuel →
      windowsFuel fuel W N c
        = (List.range (numWindows W N c)).map (fun i => (W + i * c, W + i * c + c)) := by
  intro fuel
  induction fuel with
  | zero =>
    intro W N h
    rw [numWindows_eq_zero W N c hc (by omega)]
    simp [windowsFuel]
  | succ f ih =>
    intro W N h
    by_cases hlt : W < N
    · have hrec : N - (W + c) ≤ f := by omega
      simp only [windowsFuel]
      rw [if_pos hlt, ih (W + c) N hrec, numWindows_succ W N c hc hlt,
        List.range_succ_eq_map]
      simp only [List.map_cons, List.map_map]
      congr 1
      · simp
      · congr 1
        funext i
        rw [Prod.ext_iff]
        constructor
        · show W + c + i * c = W + (i + 1) * c
          ring
        · show W + c + i * c + c = W + (i + 1) * c + c
          ring
    · simp only [windowsFuel]
      rw [if_neg hlt, numWindows_eq_zero W N c hc (by omega)]
      simp

theorem windows_eq (W N c : Nat) (hc : 0 < c) :
    windows W N c
      = (List.range (numWindows W N c)).map (fun i => (W + i * c, W + i * c + c)) :=
  windowsFuel_eq c hc (N - W) W N (Nat.le_refl _)

theorem numWindows_pos (W N c : Nat) (hc : 0 < c) (h : W < N) : 0 < numWindows W N c := by
  unfold numWindows
  exact (Nat.one_le_div_iff hc).mpr (by omega)

theorem le_numWindows_mul (W N c : Nat) (hc : 0 < c) : N ≤ W + numWindows W N c * c := by
  unfold numWindows
  have hq := Nat.div_add_mod (N - W + c - 1) c
  have hr : (N - W + c - 1) % c < c := Nat.mod_lt _ hc
  rw [Nat.mul_comm]
  generalize hQ : (N - W + c - 1) / c = q at hq ⊢
  generalize hR : (N - W + c - 1) % c = r at hq hr
  generalize hP : c * q = P at hq ⊢
  omega

theorem numWindows_min (W N c j : Nat) (hc : 0 < c) (hN : N ≤ W + j * c) :
    numWindows W N c ≤ j := by
  unfold numWindows
  rw [Nat.div_le_iff_le_mul_add_pred hc]
  rw [Nat.mul_comm j c] at hN
  generalize hP : c * j = P at hN ⊢
  omega

theorem windows_cover (W N c : Nat) (hc : 0 < c) (t : Nat) :
    (∃ w ∈ windows W N c, w.1 ≤ t ∧ t < w.2)
      ↔ (W ≤ t ∧ t < W + numWindows W N c * c) := by
  rw [windows_eq W N c hc]
  constructor
  · rintro ⟨w, hw, h1, h2⟩
    rw [List.mem_map] at hw
    obtain ⟨i, hi, rfl⟩ := hw
    rw [List.mem_range] at hi
    dsimp only at h1 h2
    have hmul : (i + 1) * c ≤ numWindows W N c * c := Nat.mul_le_mul_right c hi
    rw [Nat.succ_mul] at hmul
    generalize hA : i * c = A at h1 h2 hmul
    generalize hB : numWindows W N c * c = B at hmul ⊢
    constructor
    · omega
    · omega
  · rintro ⟨h1, h2⟩
    obtain ⟨s, rfl⟩ : ∃ s, t = W + s := ⟨t - W, by omega⟩
    have hs : s < numWindows W N c * c := by
      generalize hB : numWindows W N c * c = B at h2 ⊢
      omega
    refine ⟨(W + s / c * c, W + s / c * c + c), ?_, ?_, ?_⟩
    · rw [List.mem_map]
      exact ⟨s / c, by rw [List.mem_range]; exact (Nat.div_lt_iff_lt_mul hc).mpr hs, rfl⟩
    · show W + s / c * c ≤ W + s
      exact Nat.add_le_add_left (Nat.div_mul_le_self s c) W
    · show W + s < W + s / c * c + c
      have hdm := Nat.div_add_mod s c
      have hmod : s % c < c := Nat.mod_lt _ hc
      rw [Nat.mul_comm (s / c) c]
      generalize hA : c * (s / c) = A at hdm ⊢
      generalize hR : s % c = r at hdm hmod
      omega

/-! ## Claim C4 -/

/-- C4 counterexample: the claim says the produced windows exactly tile
`[W, N)`.  For watermark 0, "now" 1 and the email_events chunk size
(3600000 ms) the loop produces the single window `[0, 3600000)`, whose
union strictly exceeds `[0, 1)`: the instant 2 lies in a produced window
but not in `[0, 1)`. -/
theorem tap_C4_counterexample :
    ¬ tilesExactly (windows 0 1 ((CHUNK_SIZES "email_events").getD 0)) 0 1 := by
  intro h
  have h2 := (h 2).mp ⟨(0, 3600000), by decide, by decide⟩
  omega

/-- C4 (amended): for watermark `W`, loop-start instant `N` and positive
chunk size `c`, the window loop terminates and produces exactly the
finite sequence of consecutive chunk-sized windows
`[W + i*c, W + (i+1)*c)` for `i < ⌈(N-W)/c⌉` — pairwise disjoint, each
starting where the previous one ends, so no gaps and no overlaps — whose
union is exactly `[W, W + ⌈(N-W)/c⌉*c)`.  That union covers `[W, N)`,
but its end can lie strictly after `N` when `c` does not divide `N - W`:
the windows tile a superset of `[W, N)`, not `[W, N)` itself. -/
theorem tap_C4 (W N c : Nat) (hc : 0 < c) :
    windows W N c
      = (List.range (numWindows W N c)).map (fun i => (W + i * c, W + i * c + c))
    ∧ N ≤ W + numWindows W N c * c
    ∧ (∀ t, (∃ w ∈ windows W N c, w.1 ≤ t ∧ t < w.2)
        ↔ (W ≤ t ∧ t < W + numWindows W N c * c)) :=
  ⟨windows_eq W N c hc, le_numWindows_mul W N c hc, fun t => windows_cover W N c hc t⟩

theorem tap_C4_witness :
    windows 0 1 3600000
      = (List.range (numWindows 0 1 3600000)).map
          (fun i => (0 + i * 3600000, 0 + i * 3600000 + 3600000))
    ∧ 1 ≤ 0 + numWindows 0 1 3600000 * 3600000 := by
  have h := tap_C4 0 1 3600000 (by decide)
  exact ⟨h.1, h.2.1⟩

/-! ## Claim C9 -/

theorem lastD_append_single (l : List Nat) (x d : Nat) : lastD (l ++ [x]) d = x := by
  simp [lastD, List.foldl_append]

theorem lastD_range_map (f : Nat → Nat) (d k : Nat) :
    lastD ((List.range k).map f) d = if k = 0 then d else f (k - 1) := by
  cases k with
  | zero => rfl
  | succ n =>
    rw [List.range_succ, List.map_append]
    simp [lastD_append_single]

/-- C9: for a chunked stream with watermark `W` strictly before the
loop-start instant `N` and positive chunk size `c`, the watermark stored
at completion equals `W + k*c` for the least positive `k` with
`W + k*c ≥ N` (namely `k = ⌈(N-W)/c⌉`); in particular it can lie
strictly after `N`, as the witness at `W = 0`, `N = 1`,
`c = 3600000` shows. -/
theorem tap_C9 (W N c : Nat) (hc : 0 < c) (hWN : W < N) :
    chunkedFinalWatermark W N c = W + numWindows W N c * c
    ∧ 0 < numWindows W N c
    ∧ N ≤ W + numWindows W N c * c
    ∧ (∀ j, 0 < j → N ≤ W + j * c → numWindows W N c ≤ j) := by
  have hk := numWindows_pos W N c hc hWN
  refine ⟨?_, hk, le_numWindows_mul W N c hc, fun j _ hNj => numWindows_min W N c j hc hNj⟩
  unfold chunkedFinalWatermark
  rw [windows_eq W N c hc, List.map_map, lastD_range_map, if_neg (by omega)]
  show W + (numWindows W N c - 1) * c + c = W + numWindows W N c * c
  have h1 : (numWindows W N c - 1) * c + c = numWindows W N c * c := by
    rw [← Nat.succ_mul]
    congr 1
    omega
  rw [Nat.add_assoc, h1]

theorem tap_C9_witness :
    chunkedFinalWatermark 0 1 3600000 = 0 + numWindows 0 1 3600000 * 3600000
    ∧ 0 < numWindows 0 1 3600000
    ∧ 1 ≤ 0 + numWindows 0 1 3600000 * 3600000 := by
  have h := tap_C9 0 1 3600000 (by decide) (by decide)
  exact ⟨h.1, h.2.1, h.2.2.1⟩

/-! ## Claim C3 -/

theorem countStates_cons (m : Msg) (l : List Msg) :
    countStates (m :: l) = countStates l + (if m = Msg.state then 1 else 0) := by
  simp [countStates, List.countP_cons]

theorem countStates_append (l1 l2 : List Msg) :
    countStates (l1 ++ l2) = countStates l1 + countStates l2 := by
  simp [countStates, List.countP_append]

theorem countStates_flatten (ls : List (List Msg)) :
    countStates ls.flatten = (ls.map countStates).sum := by
  induction ls with
  | nil => rfl
  | cons a t ih => simp [List.flatten_cons, countStates_append, ih]

theorem countStates_single_state : countStates [Msg.state] = 1 := by decide

theorem countStates_record_map (stream : String) (l : List Nat) :
    countStates (l.map (fun _ => Msg.record stream)) = 0 := by
  induction l with
  | nil => rfl
  | cons a t ih => simpa [countStates_cons] using ih

theorem countStates_record_batches (stream : String) (bs : List (List Nat)) :
    countStates ((bs.map (fun b => b.map (fun _ => Msg.record stream))).flatten) = 0 := by
  induction bs with
  | nil => rfl
  | cons b t ih =>
    rw [List.map_cons, List.flatten_cons, countStates_append, ih,
      countStates_record_map stream b]

theorem countStates_contacts (rows : List ContactRow) (last_sync : Nat) :
    countStates (sync_contacts_msgs rows last_sync) = 1 := by
  unfold sync_contacts_msgs
  rw [countStates_append, countStates_cons, countStates_record_batches,
    countStates_single_state]
  simp

theorem countStates_masterDetailRow (stream : String) (last_sync i : Nat)
    (r : CompanyRecord) :
    countStates (masterDetailRowMsgs stream last_sync i r)
      = if i % 250 = 0 then 1 else 0 := by
  unfold masterDetailRowMsgs
  cases hm : r.modified with
  | none =>
    by_cases hi : i % 250 = 0 <;>
      simp [countStates_append, countStates_cons, countStates, hi]
  | some m =>
    by_cases hp : last_sync ≤ m <;> by_cases hi : i % 250 = 0 <;>
      simp [countStates_append, countStates_cons, countStates, hp, hi]

theorem sum_indicator_mod250 (l : List Nat) :
    (l.map (fun i => if i % 250 = 0 then 1 else 0)).sum
      = (l.filter (fun i => i % 250 = 0)).length := by
  induction l with
  | nil => rfl
  | cons a t ih =>
    by_cases h : a % 250 = 0
    · simp [List.filter_cons, h, ih]
      omega
    · simp [List.filter_cons, h, ih]

theorem countStates_masterDetail (stream : String) (records : List CompanyRecord)
    (last_sync : Nat) :
    countStates
        ((records.enum.map (fun p => masterDetailRowMsgs stream last_sync p.1 p.2)).flatten)
      = ((List.range records.length).filter (fun i => i % 250 = 0)).length := by
  rw [countStates_flatten, List.map_map]
  have h1 : records.enum.map (countStates ∘ fun p => masterDetailRowMsgs stream last_sync p.1 p.2)
      = records.enum.map (fun p => if p.1 % 250 = 0 then 1 else 0) := by
    apply List.map_congr_left
    intro p _
    exact countStates_masterDetailRow stream last_sync p.1 p.2
  rw [h1]
  have h2 : records.enum.map (fun p => if p.1 % 250 = 0 then 1 else 0)
      = (records.enum.map Prod.fst).map (fun i => if i % 250 = 0 then 1 else 0) := by
    rw [List.map_map]
    rfl
  rw [h2, List.enum_map_fst, sum_indicator_mod250]

theorem countStates_companies (records : List CompanyRecord) (last_sync : Nat) :
    countStates (sync_companies_msgs records last_sync)
      = ((List.range records.length).filter (fun i => i % 250 = 0)).length := by
  unfold sync_companies_msgs
  rw [countStates_cons, countStates_masterDetail]
  simp

theorem countStates_deals (records : List CompanyRecord) (last_sync : Nat) :
    countStates (sync_deals_msgs records last_sync)
      = ((List.range records.length).filter (fun i => i % 250 = 0)).length := by
  unfold sync_deals_msgs
  rw [countStates_cons, countStates_masterDetail]
  simp

theorem sum_map_one (l : List Nat) : (l.map (fun _ => (1 : Nat))).sum = l.length := by
  induction l with
  | nil => rfl
  | cons a t ih => simp [ih, Nat.add_comm]

theorem countStates_chunked (entity : String) (rowsInWindow : Nat → Nat)
    (start_ts now_ts chunk : Nat) :
    countStates (sync_entity_chunked_msgs entity rowsInWindow start_ts now_ts chunk)
      = (windows start_ts now_ts chunk).length := by
  unfold sync_entity_chunked_msgs
  rw [countStates_cons, countStates_flatten, List.map_map]
  have h1 : (List.range (windows start_ts now_ts chunk).length).map
        (countStates ∘ fun i =>
          (List.range (rowsInWindow i)).map (fun _ => Msg.record entity) ++ [Msg.state])
      = (List.range (windows start_ts now_ts chunk).length).map (fun _ => (1 : Nat)) := by
    apply List.map_congr_left
    intro i _
    show countStates ((List.range (rowsInWindow i)).map (fun _ => Msg.record entity)
      ++ [Msg.state]) = 1
    rw [countStates_append, countStates_record_map, countStates_single_state]
  rw [h1, sum_map_one, List.length_range]
  simp

theorem countStates_small (entity : String) (ups : List Nat) (start : Nat) :
    countStates (sync_small_stream_msgs entity ups start) = 1 := by
  unfold sync_small_stream_msgs
  rw [countStates_append, countStates_cons, countStates_single_state]
  have h1 : countStates
      (ups.filterMap (fun u => if start ≤ u then some (Msg.record entity) else none)) = 0 := by
    induction ups with
    | nil => rfl
    | cons u t ih =>
      rw [List.filterMap_cons]
      by_cases h : start ≤ u
      · rw [if_pos h]
        show countStates (Msg.record entity
          :: t.filterMap (fun u => if start ≤ u then some (Msg.record entity) else none)) = 0
        simpa [countStates_cons] using ih
      · rw [if_neg h]
        exact ih
  rw [h1]
  simp

theorem countStates_campaigns (rows : List Nat) :
    countStates (sync_campaigns_msgs rows) = 0 := by
  unfold sync_campaigns_msgs
  rw [countStates_cons, countStates_record_map]
  simp

theorem countStates_contact_lists (rows : List Nat) :
    countStates (sync_contact_lists_msgs rows) = 0 := by
  unfold sync_contact_lists_msgs
  rw [countStates_cons, countStates_record_map]
  simp

/-- C3 counterexample: the claim says campaigns emits exactly one state
message at stream completion and contacts emits one state message per
completed detail-batch of 100.  A campaigns sync listing one campaign
emits zero state messages, and a contacts sync with 200 passing
candidates — two completed batches of 100 — emits one state message, not
two. -/
theorem tap_C3_counterexample :
    countStates (sync_campaigns_msgs [7]) = 0
    ∧ countStates (sync_contacts_msgs (mkCandidateRows 200) 0) = 1
    ∧ (contactsBatches (mkCandidateRows 200) 0).length = 2 := by
  refine ⟨by decide, by decide, by decide⟩

/-- C3 (amended): the actual checkpoint cadences are: the contacts sync
emits exactly one state message, at stream completion, however many
detail batches complete; the companies and deals syncs emit a state
message at every listed record whose zero-based index is divisible by
250 (the 1st, 251st, 501st, ... listed records); the chunked streams
emit exactly one state message per completed window; forms, workflows,
keywords and owners emit exactly one state message at stream completion;
campaigns and contact_lists emit no state message at all. -/
theorem tap_C3 (camRows listRows : List Nat) (crows : List ContactRow)
    (recs drecs : List CompanyRecord) (last_sync dls start W N c : Nat)
    (rowsInWindow : Nat → Nat) (ups wps kps ops : List Nat) :
    countStates (sync_contacts_msgs crows last_sync) = 1
    ∧ countStates (sync_companies_msgs recs last_sync)
        = ((List.range recs.length).filter (fun i => i % 250 = 0)).length
    ∧ countStates (sync_deals_msgs drecs dls)
        = ((List.range drecs.length).filter (fun i => i % 250 = 0)).length
    ∧ countStates (sync_entity_chunked_msgs "email_events" rowsInWindow W N c)
        = (windows W N c).length
    ∧ countStates (sync_small_stream_msgs "forms" ups start) = 1
    ∧ countStates (sync_small_stream_msgs "workflows" wps start) = 1
    ∧ countStates (sync_small_stream_msgs "keywords" kps start) = 1
    ∧ countStates (sync_small_stream_msgs "owners" ops start) = 1
    ∧ countStates (sync_campaigns_msgs camRows) = 0
    ∧ countStates (sync_contact_lists_msgs listRows) = 0 :=
  ⟨countStates_contacts crows last_sync,
   countStates_companies recs last_sync,
   countStates_deals drecs dls,
   countStates_chunked "email_events" rowsInWindow W N c,
   countStates_small "forms" ups start,
   countStates_small "workflows" wps start,
   countStates_small "keywords" kps start,
   countStates_small "owners" ops start,
   countStates_campaigns camRows,
   countStates_contact_lists listRows⟩


end TapHubspot
